import Mathlib

/-!
Verification development for the paginated-listing crawler in
src/Emphasoft/main_async.py.

The Python source is shallowly embedded below.  Network and file-system
effects are made explicit: an HTTP response is a `Resp` (status plus body),
the outcome of a fetch attempt is a `Fetch` (a server response or a
transport-level failure), and the crawler loop is a fuel-indexed recursive
function whose result records the listing offsets it requested, the
aggregated records, and the file writes it performed.  A Python expression
that raises is modelled by an explicit `raised` constructor (when the
exception escapes the function) or by skipping the row (when the source
wraps the row body in a try/except).
-/

/-- Raw bytes of an HTTP body or of a saved file, modelled as a list of
byte values. -/
abbrev Bytes := List Nat

/-- Hardcoded year window from the source (lines 11-12): `MIN_YEAR = 2018`. -/
def MIN_YEAR : Int := 2018

/-- Hardcoded year window from the source (lines 11-12): `MAX_YEAR = 2020`. -/
def MAX_YEAR : Int := 2020

/-- One `tr` element of the listing table, reduced to the four accesses the
source performs on it.  Each field is `none` exactly when the corresponding
chain of accesses in the source raises (missing tag, `.string` of `None`,
non-numeric `int(...)`, missing `href` attribute):
* `key_text` is the text of `row.findChild([LeftCellSpacer, a]).string`
  before the first parenthesis (lines 33 and 57-58);
* `href` is `form_number_elem.attrs[href]` (line 60);
* `title_text` is the stripped string of the `td` with class
  `MiddleCellSpacer` (line 39);
* `year_val` is `int(...)` of the stripped string of the `td` with class
  `EndCellSpacer` (lines 34 and 56). -/
structure Tr where
  key_text : Option String
  href : Option String
  title_text : Option String
  year_val : Option Int
deriving DecidableEq

/-- One aggregated dictionary built by `parse_page_forms_json`
(lines 37-42 of the source). -/
structure Record where
  form_number : String
  form_title : String
  min_year : Int
  max_year : Int
deriving DecidableEq

/-- Default used with `List.getD`; never reached because every index fed to
`getD` comes from `is_key_in_dict`, which only returns in-range indices. -/
def default_record : Record :=
  { form_number := "", form_title := "", min_year := 0, max_year := 0 }

/-- An HTTP response as seen by `load_page`: aiohttp exposes the status code
under the attribute `status`. -/
structure Resp where
  status : Nat
  body : Bytes
deriving DecidableEq

/-- What a call to `load_page` does: either it returns a value (the body, or
Python `None`), or an exception escapes it. -/
inductive FetchOutcome where
  | returned (b : Option Bytes)
  | raised (e : String)
deriving DecidableEq

/-- The outcome of the underlying `session.get`: either the server answered
with a response, or the transport failed (timeout, connection reset, DNS
failure), which raises inside `session.get`. -/
inductive Fetch where
  | resp (r : Resp)
  | transport_error (e : String)
deriving DecidableEq

/-- Embedding of `load_page` (source lines 21-26).  On a 2xx status it
returns the raw body.  On any other status the source evaluates
`resp.status_code` inside the `logger.error` f-string; an aiohttp
`ClientResponse` has no attribute `status_code` (the attribute is named
`status`), so building the log message raises `AttributeError`, which
escapes `load_page` to its caller instead of logging and returning
`None`. -/
def load_page (resp : Resp) : FetchOutcome :=
  if 200 ≤ resp.status ∧ resp.status ≤ 299 then
    FetchOutcome.returned (some resp.body)
  else
    FetchOutcome.raised ("AttributeError")

/-- Outcome of `await load_page(url, session)` for a given transport result:
a transport failure raises inside `session.get` and escapes `load_page`
unchanged; otherwise `load_page` runs on the response. -/
def fetch_artifact : Fetch → FetchOutcome
  | Fetch.resp r => load_page r
  | Fetch.transport_error e => FetchOutcome.raised e

/-- A fetch succeeds exactly when the server answered with a 2xx status. -/
def fetch_succeeds : Fetch → Bool
  | Fetch.resp r => decide (200 ≤ r.status) && decide (r.status ≤ 299)
  | Fetch.transport_error _ => false

/-- Body delivered by a successful fetch (meaningful only when
`fetch_succeeds` holds). -/
def fetch_body : Fetch → Bytes
  | Fetch.resp r => r.body
  | Fetch.transport_error _ => []

/-- Embedding of `is_key_in_dict` (source lines 15-18): index of the first
dictionary in `array` whose `form_number` entry equals `dict_key`, and
Python `None` (falling off the loop) when there is none. -/
def is_key_in_dict (dict_key : String) (array : List Record) : Option Nat :=
  match array with
  | [] => none
  | d :: rest =>
    if d.form_number == dict_key then some 0
    else (is_key_in_dict dict_key rest).map (fun i => i + 1)

/-- The seen-key branch of `parse_page_forms_json` (source lines 43-47):
`if` the stored `min_year` exceeds the current year, lower it; `elif` the
stored `max_year` is below the current year, raise it. -/
def update_years (r : Record) (current_year : Int) : Record :=
  if r.min_year > current_year then { r with min_year := current_year }
  else if r.max_year < current_year then { r with max_year := current_year }
  else r

/-- Body of the `for row in rows` loop of `parse_page_forms_json`
(source lines 31-49).  The try/except around the body turns every raising
access into "skip this row": a missing key (`key_text = none`) or a missing
or non-numeric year (`year_val = none`) raises before the list is touched;
on the unseen-key branch the dictionary literal evaluates the title cell,
so a missing title (`title_text = none`) also skips the row — but only on
that branch, since the seen-key branch never reads the title. -/
def fold_row (page_forms : List Record) (row : Tr) : List Record :=
  match row.key_text with
  | none => page_forms
  | some form_number =>
    match row.year_val with
    | none => page_forms
    | some current_year =>
      match is_key_in_dict form_number page_forms with
      | none =>
        match row.title_text with
        | none => page_forms
        | some form_title =>
          page_forms ++ [{ form_number := form_number, form_title := form_title,
                           min_year := current_year, max_year := current_year }]
      | some index =>
        page_forms.set index
          (update_years (page_forms.getD index default_record) current_year)

/-- Embedding of `parse_page_forms_json` (source lines 29-50), which starts
from an empty `page_forms` list on every call.  The final `json_dumps` of
each dictionary is left out: the records themselves are returned. -/
def parse_page_forms_json (rows : List Tr) : List Record :=
  rows.foldl fold_row []

/-- Destination path of a saved artifact (source line 63): the f-string
interpolating the form number twice and the current year. -/
def artifact_path (form_number : String) (current_year : Int) : String :=
  form_number ++ "/" ++ form_number ++ "_" ++ toString current_year ++ ".pdf"

/-- A file written to disk. -/
structure FileWrite where
  path : String
  content : Bytes
deriving DecidableEq

/-- Body of the `for row in rows` loop of `save_page_form_pdf`
(source lines 54-67), returning the file writes the row produces.  The year
and key are extracted first (lines 56-58; a failure skips the row); inside
the year window the `href` attribute is read (a missing attribute raises
`KeyError`, skipping the row) and the artifact fetched; if `load_page`
raises (non-2xx status or transport failure) the except clause logs and no
file is touched.  Had `load_page` returned `None`, the write-mode open
would already have created the file before `f.write(None)` raised, leaving
an empty file; with `load_page` as written that branch is unreachable. -/
def save_row (fetch : String → Fetch) (row : Tr) : List FileWrite :=
  match row.year_val with
  | none => []
  | some current_year =>
    match row.key_text with
    | none => []
    | some form_number =>
      if MIN_YEAR ≤ current_year ∧ current_year ≤ MAX_YEAR then
        match row.href with
        | none => []
        | some url =>
          match fetch_artifact (fetch url) with
          | FetchOutcome.returned (some b) =>
            [{ path := artifact_path form_number current_year, content := b }]
          | FetchOutcome.returned none =>
            [{ path := artifact_path form_number current_year, content := [] }]
          | FetchOutcome.raised _ => []
      else []

/-- Embedding of `save_page_form_pdf` (source lines 53-67): the rows are
processed in order, each contributing its writes.  `fetch` gives the
transport result of `session.get` on each artifact URL. -/
def save_page_form_pdf (fetch : String → Fetch) (rows : List Tr) : List FileWrite :=
  ((rows.map (save_row fetch)).flatten)

/-- The single table of class `picklist-dataTable` on a listing page:
its `tr` elements, header first. -/
structure Table where
  trs : List Tr
deriving DecidableEq

/-- The parsed HTML of a listing page (`BeautifulSoup(page, ...)`):
`picklist_table` is the result of `soup.find` for the table of class
`picklist-dataTable` (line 83), `none` when the page has no such table. -/
structure Soup where
  picklist_table : Option Table
deriving DecidableEq

/-- Result of the crawl loop: the listing offsets requested (in order),
and either normal completion with the aggregated records and file writes,
an exception escaping the loop, or fuel exhaustion (a modelling artifact:
the Python loop is `while 1`). -/
inductive LoopResult where
  | finished (requests : List Nat) (aggregated : List Record) (writes : List FileWrite)
  | raised (requests : List Nat) (error : String)
  | out_of_fuel (requests : List Nat)
deriving DecidableEq

/-- Aggregated records of a finished crawl. -/
def LoopResult.aggregated_of : LoopResult → List Record
  | LoopResult.finished _ agg _ => agg
  | LoopResult.raised _ _ => []
  | LoopResult.out_of_fuel _ => []

/-- Embedding of the `while 1` loop of `main` (source lines 74-90).
`listing` gives the parsed soup of the listing page at each offset (the
listing fetch itself is modelled as succeeding; a failing listing fetch
would make `load_page` raise and kill the loop just like the
`picklist_table = none` case).  Each iteration requests the page at the
current offset and takes the rows of the table minus the header row
(`table.find_all` then the `[1:]` slice, line 84); when the table is
absent the source calls `.find_all` on `None` and an `AttributeError`
escapes the loop; when the remaining rows are empty the loop breaks;
otherwise the rows of the page are parsed and saved and the offset
advances by 200. -/
def main_loop (listing : Nat → Soup) (fetch : String → Fetch) :
    Nat → Nat → List Nat → List Record → List FileWrite → LoopResult
  | 0, _, reqs, _, _ => LoopResult.out_of_fuel reqs
  | fuel + 1, pagination, reqs, agg, writes =>
    let reqs2 := reqs ++ [pagination]
    match (listing pagination).picklist_table with
    | none => LoopResult.raised reqs2 ("AttributeError")
    | some table =>
      let rows := table.trs.drop 1
      if rows = [] then
        LoopResult.finished reqs2 agg writes
      else
        main_loop listing fetch fuel (pagination + 200) reqs2
          (agg ++ parse_page_forms_json rows)
          (writes ++ save_page_form_pdf fetch rows)

/-- Embedding of `main` (source lines 70-91): the loop starts at offset 0
with nothing requested, aggregated or written.  (Named `main_crawl` because
Lean reserves `main` for an executable entry point.) -/
def main_crawl (listing : Nat → Soup) (fetch : String → Fetch) (fuel : Nat) : LoopResult :=
  main_loop listing fetch fuel 0 [] [] []

/-- A header row: the source always drops the first `tr` of the table, so
its fields never matter. -/
def hdr_tr : Tr := { key_text := none, href := none, title_text := none, year_val := none }

/-- A fully well-formed row with key A and year 2019. -/
def trA2019 : Tr :=
  { key_text := some "A", href := some "uA", title_text := some "Form A",
    year_val := some 2019 }

/-- A fully well-formed row with key A and year 2020. -/
def trA2020 : Tr :=
  { key_text := some "A", href := some "uA", title_text := some "Form A",
    year_val := some 2020 }

/-- A row whose title cell is missing but whose key, link and year are all
present and well-formed. -/
def tr_no_title : Tr :=
  { key_text := some "A", href := some "uA", title_text := none, year_val := some 2019 }

/-- A record for key A with both year bounds at 2018. -/
def recA2018 : Record :=
  { form_number := "A", form_title := "Form A", min_year := 2018, max_year := 2018 }

/-- A fetch oracle on which every artifact URL answers 200 with body [1]. -/
def ex_fetch : String → Fetch := fun _ => Fetch.resp { status := 200, body := [1] }

/-- A listing with two one-row pages carrying the same key A (years 2019
and 2020), followed by a header-only page. -/
def ex_listing : Nat → Soup := fun offset =>
  if offset = 0 then { picklist_table := some { trs := [hdr_tr, trA2019] } }
  else if offset = 200 then { picklist_table := some { trs := [hdr_tr, trA2020] } }
  else { picklist_table := some { trs := [hdr_tr] } }

/-- A listing with one non-empty page followed by header-only pages. -/
def w_listing : Nat → Soup := fun offset =>
  if offset = 0 then { picklist_table := some { trs := [hdr_tr, trA2019] } }
  else { picklist_table := some { trs := [hdr_tr] } }

/-- A listing whose pages at offsets 0 and 200 carry the row batches `p1`
and `p2` under a header row, every later page being header-only. -/
def two_page_listing (hdr : Tr) (p1 p2 : List Tr) : Nat → Soup := fun offset =>
  if offset = 0 then { picklist_table := some { trs := hdr :: p1 } }
  else if offset = 200 then { picklist_table := some { trs := hdr :: p2 } }
  else { picklist_table := some { trs := [hdr] } }

theorem update_years_form_number (r : Record) (y : Int) :
    (update_years r y).form_number = r.form_number := by
  unfold update_years; split_ifs <;> rfl

theorem update_years_form_title (r : Record) (y : Int) :
    (update_years r y).form_title = r.form_title := by
  unfold update_years; split_ifs <;> rfl

theorem update_years_min (r : Record) (y : Int) :
    (update_years r y).min_year = min r.min_year y := by
  unfold update_years; split_ifs <;> (try simp) <;> omega

theorem update_years_max (r : Record) (y : Int) (h : r.min_year ≤ r.max_year) :
    (update_years r y).max_year = max r.max_year y := by
  unfold update_years; split_ifs <;> (try simp) <;> omega

theorem update_years_inv (r : Record) (y : Int) (h : r.min_year ≤ r.max_year) :
    (update_years r y).min_year ≤ (update_years r y).max_year := by
  unfold update_years; split_ifs <;> (try simp) <;> omega

theorem update_years_one_bound (r : Record) (y : Int) :
    (update_years r y).min_year = r.min_year ∨ (update_years r y).max_year = r.max_year := by
  unfold update_years; split_ifs <;> simp

theorem is_key_in_dict_none_iff (k : String) (l : List Record) :
    is_key_in_dict k l = none ↔ ∀ r ∈ l, r.form_number ≠ k := by
  induction l with
  | nil => simp [is_key_in_dict]
  | cons d rest ih =>
    by_cases h : d.form_number = k
    · simp [is_key_in_dict, h]
    · simp [is_key_in_dict, h, ih]

theorem is_key_in_dict_some (k : String) (l : List Record) (i : Nat)
    (h : is_key_in_dict k l = some i) :
    i < l.length ∧ (l.getD i default_record).form_number = k := by
  induction l generalizing i with
  | nil => simp [is_key_in_dict] at h
  | cons d rest ih =>
    by_cases hd : d.form_number = k
    · simp [is_key_in_dict, hd] at h
      subst h
      simpa using hd
    · simp [is_key_in_dict, hd] at h
      obtain ⟨j, hj, rfl⟩ := h
      obtain ⟨h1, h2⟩ := ih j hj
      exact ⟨by simpa using h1, by simpa using h2⟩

theorem getD_set_self (l : List Record) (i : Nat) (r : Record) (h : i < l.length) :
    (l.set i r).getD i default_record = r := by
  rw [List.getD_eq_getElem?_getD, List.getElem?_set_self h]
  rfl

theorem getD_set_ne (l : List Record) (i j : Nat) (r : Record) (h : i ≠ j) :
    (l.set i r).getD j default_record = l.getD j default_record := by
  rw [List.getD_eq_getElem?_getD, List.getElem?_set_ne h, ← List.getD_eq_getElem?_getD]

theorem getD_mem (l : List Record) (i : Nat) (h : i < l.length) :
    l.getD i default_record ∈ l := by
  rw [List.getD_eq_getElem?_getD, List.getElem?_eq_getElem h]
  exact List.getElem_mem h

theorem fold_row_inv (acc : List Record) (tr : Tr)
    (h : ∀ r ∈ acc, r.min_year ≤ r.max_year) :
    ∀ r ∈ fold_row acc tr, r.min_year ≤ r.max_year := by
  intro r hr
  unfold fold_row at hr
  split at hr
  · exact h r hr
  · split at hr
    · exact h r hr
    · split at hr
      · split at hr
        · exact h r hr
        · rcases List.mem_append.mp hr with hmem | hmem
          · exact h r hmem
          · simp at hmem
            subst hmem
            simp
      · rename_i idx hidx
        rcases List.mem_or_eq_of_mem_set hr with hmem | hmem
        · exact h r hmem
        · subst hmem
          obtain ⟨hlt, _⟩ := is_key_in_dict_some _ _ _ hidx
          exact update_years_inv _ _ (h _ (getD_mem _ _ hlt))

theorem foldl_fold_row_inv (rows : List Tr) (acc : List Record)
    (h : ∀ r ∈ acc, r.min_year ≤ r.max_year) :
    ∀ r ∈ List.foldl fold_row acc rows, r.min_year ≤ r.max_year := by
  induction rows generalizing acc with
  | nil => simpa using h
  | cons tr rest ih =>
    simpa using ih (fold_row acc tr) (fold_row_inv acc tr h)

theorem map_form_number_set (l : List Record) (i : Nat) (r : Record)
    (hkey : r.form_number = (l.getD i default_record).form_number) :
    (l.set i r).map (fun x => x.form_number) = l.map (fun x => x.form_number) := by
  induction l generalizing i with
  | nil => rfl
  | cons d rest ih =>
    cases i with
    | zero => simpa using hkey
    | succ j =>
      simp only [List.set_cons_succ, List.map_cons]
      rw [ih j (by simpa using hkey)]

theorem fold_row_nodup (acc : List Record) (tr : Tr)
    (h : (acc.map (fun r => r.form_number)).Nodup) :
    ((fold_row acc tr).map (fun r => r.form_number)).Nodup := by
  rcases tr with ⟨kt, hf, tt, yv⟩
  cases kt with
  | none => simpa [fold_row] using h
  | some fn =>
    cases yv with
    | none => simpa [fold_row] using h
    | some cy =>
      rcases hidx : is_key_in_dict fn acc with _ | idx
      · cases tt with
        | none => simpa [fold_row, hidx] using h
        | some ft =>
          simp only [fold_row, hidx, List.map_append, List.map_cons, List.map_nil]
          rw [(List.perm_append_singleton _ _).nodup_iff, List.nodup_cons]
          refine ⟨?_, h⟩
          intro hmem
          simp only [List.mem_map] at hmem
          obtain ⟨r, hr, hrk⟩ := hmem
          exact ((is_key_in_dict_none_iff _ _).mp hidx r hr) hrk
      · simp only [fold_row, hidx]
        rw [map_form_number_set _ _ _ (update_years_form_number _ _)]
        exact h

theorem foldl_fold_row_nodup (rows : List Tr) (acc : List Record)
    (h : (acc.map (fun r => r.form_number)).Nodup) :
    ((List.foldl fold_row acc rows).map (fun r => r.form_number)).Nodup := by
  induction rows generalizing acc with
  | nil => simpa using h
  | cons tr rest ih =>
    simpa using ih (fold_row acc tr) (fold_row_nodup acc tr h)

theorem fold_row_singleton_same_key (k u t : String) (z : Int) (r : Record)
    (hk : r.form_number = k) :
    fold_row [r] (Tr.mk (some k) (some u) (some t) (some z)) = [update_years r z] := by
  simp [fold_row, is_key_in_dict, hk]

theorem foldl_fold_row_single_key (k u t : String) (zs : List Int) (r : Record)
    (hk : r.form_number = k) :
    List.foldl fold_row [r] (zs.map (fun z => Tr.mk (some k) (some u) (some t) (some z)))
      = [List.foldl update_years r zs] := by
  induction zs generalizing r with
  | nil => rfl
  | cons z zs ih =>
    simp only [List.map_cons, List.foldl_cons]
    rw [fold_row_singleton_same_key k u t z r hk]
    exact ih (update_years r z) (by rw [update_years_form_number]; exact hk)

theorem foldl_update_years_form_number (zs : List Int) (r : Record) :
    (List.foldl update_years r zs).form_number = r.form_number := by
  induction zs generalizing r with
  | nil => rfl
  | cons z zs ih => rw [List.foldl_cons, ih, update_years_form_number]

theorem foldl_update_years_form_title (zs : List Int) (r : Record) :
    (List.foldl update_years r zs).form_title = r.form_title := by
  induction zs generalizing r with
  | nil => rfl
  | cons z zs ih => rw [List.foldl_cons, ih, update_years_form_title]

theorem foldl_update_years_min (zs : List Int) (r : Record) :
    (List.foldl update_years r zs).min_year = List.foldl min r.min_year zs := by
  induction zs generalizing r with
  | nil => rfl
  | cons z zs ih => rw [List.foldl_cons, ih, update_years_min, List.foldl_cons]

theorem foldl_update_years_max (zs : List Int) (r : Record) (h : r.min_year ≤ r.max_year) :
    (List.foldl update_years r zs).max_year = List.foldl max r.max_year zs := by
  induction zs generalizing r with
  | nil => rfl
  | cons z zs ih =>
    rw [List.foldl_cons, ih (update_years r z) (update_years_inv r z h),
        update_years_max r z h, List.foldl_cons]

theorem foldl_min_le (zs : List Int) (a : Int) :
    List.foldl min a zs ≤ a ∧ ∀ z ∈ zs, List.foldl min a zs ≤ z := by
  induction zs generalizing a with
  | nil => simp
  | cons z zs ih =>
    obtain ⟨h1, h2⟩ := ih (min a z)
    refine ⟨le_trans h1 (min_le_left _ _), ?_⟩
    intro w hw
    rcases List.mem_cons.mp hw with rfl | hw
    · exact le_trans h1 (min_le_right _ _)
    · exact h2 _ hw

theorem foldl_max_le (zs : List Int) (a : Int) :
    a ≤ List.foldl max a zs ∧ ∀ z ∈ zs, z ≤ List.foldl max a zs := by
  induction zs generalizing a with
  | nil => simp
  | cons z zs ih =>
    obtain ⟨h1, h2⟩ := ih (max a z)
    refine ⟨le_trans (le_max_left _ _) h1, ?_⟩
    intro w hw
    rcases List.mem_cons.mp hw with rfl | hw
    · exact le_trans (le_max_right _ _) h1
    · exact h2 _ hw

theorem foldl_min_mem (zs : List Int) (a : Int) :
    List.foldl min a zs = a ∨ List.foldl min a zs ∈ zs := by
  induction zs generalizing a with
  | nil => simp
  | cons z zs ih =>
    rw [List.foldl_cons]
    rcases ih (min a z) with h | h
    · rw [h]
      rcases min_cases a z with ⟨h1, _⟩ | ⟨h1, _⟩
      · exact Or.inl h1
      · exact Or.inr (by simp [h1])
    · exact Or.inr (List.mem_cons_of_mem _ h)

theorem foldl_max_mem (zs : List Int) (a : Int) :
    List.foldl max a zs = a ∨ List.foldl max a zs ∈ zs := by
  induction zs generalizing a with
  | nil => simp
  | cons z zs ih =>
    rw [List.foldl_cons]
    rcases ih (max a z) with h | h
    · rw [h]
      rcases max_cases a z with ⟨h1, _⟩ | ⟨h1, _⟩
      · exact Or.inl h1
      · exact Or.inr (by simp [h1])
    · exact Or.inr (List.mem_cons_of_mem _ h)

theorem fold_row_skip (acc : List Record) (bad : Tr)
    (hbad : bad.year_val = none ∨ bad.key_text = none) :
    fold_row acc bad = acc := by
  rcases hbad with hb | hb
  · cases hkey : bad.key_text <;> simp [fold_row, hkey, hb]
  · simp [fold_row, hb]

theorem save_row_skip (fetch : String → Fetch) (bad : Tr)
    (hbad : bad.year_val = none ∨ bad.key_text = none) :
    save_row fetch bad = [] := by
  rcases hbad with hb | hb
  · simp [save_row, hb]
  · cases hy : bad.year_val <;> simp [save_row, hy, hb]

theorem record_eq_of_fields (r s : Record) (h1 : r.form_number = s.form_number)
    (h2 : r.form_title = s.form_title) (h3 : r.min_year = s.min_year)
    (h4 : r.max_year = s.max_year) : r = s := by
  cases r; cases s; simp_all

theorem range_offsets (j n : Nat) :
    (List.range (n + 1)).map (fun i => 200 * (j + i)) =
      200 * j :: (List.range n).map (fun i => 200 * (j + 1 + i)) := by
  rw [List.range_succ_eq_map, List.map_cons, List.map_map]
  congr 1
  refine List.map_congr_left fun i _ => ?_
  simp only [Function.comp_apply]
  omega

theorem main_loop_pages (listing : Nat → Soup) (fetch : String → Fetch) (N : Nat)
    (hN : ∀ i, i < N → ∃ tb, (listing (200 * i)).picklist_table = some tb ∧ tb.trs.drop 1 ≠ [])
    (hEnd : ∃ tb, (listing (200 * N)).picklist_table = some tb ∧ tb.trs.drop 1 = []) :
    ∀ fuel j reqs agg writes, j ≤ N → N - j < fuel →
      ∃ agg2 writes2,
        main_loop listing fetch fuel (200 * j) reqs agg writes =
          LoopResult.finished
            (reqs ++ (List.range (N + 1 - j)).map (fun i => 200 * (j + i))) agg2 writes2 := by
  intro fuel
  induction fuel with
  | zero =>
    intro j reqs agg writes hj hf
    omega
  | succ fuel ih =>
    intro j reqs agg writes hj hf
    by_cases hjN : j = N
    · subst hjN
      obtain ⟨tb, htb, hrows⟩ := hEnd
      refine ⟨agg, writes, ?_⟩
      simp only [main_loop, htb]
      rw [if_pos hrows]
      have hone : j + 1 - j = 1 := by omega
      rw [hone]
      simp [List.range_succ]
    · have hjlt : j < N := lt_of_le_of_ne hj hjN
      obtain ⟨tb, htb, hrows⟩ := hN j hjlt
      obtain ⟨agg2, writes2, hrec⟩ :=
        ih (j + 1) (reqs ++ [200 * j])
          (agg ++ parse_page_forms_json (tb.trs.drop 1))
          (writes ++ save_page_form_pdf fetch (tb.trs.drop 1))
          (by omega) (by omega)
      refine ⟨agg2, writes2, ?_⟩
      simp only [main_loop, htb]
      rw [if_neg hrows]
      have h200 : 200 * j + 200 = 200 * (j + 1) := by ring
      rw [h200, hrec]
      congr 1
      rw [List.append_assoc]
      congr 1
      have hr1 : N + 1 - j = (N - j) + 1 := by omega
      have hr2 : N + 1 - (j + 1) = N - j := by omega
      rw [hr1, hr2, range_offsets j (N - j), List.singleton_append]

theorem main_loop_succ (listing : Nat → Soup) (fetch : String → Fetch) (fuel pagination : Nat)
    (reqs : List Nat) (agg : List Record) (writes : List FileWrite) :
    main_loop listing fetch (fuel + 1) pagination reqs agg writes =
      (match (listing pagination).picklist_table with
      | none => LoopResult.raised (reqs ++ [pagination]) ("AttributeError")
      | some table =>
        if table.trs.drop 1 = [] then
          LoopResult.finished (reqs ++ [pagination]) agg writes
        else
          main_loop listing fetch fuel (pagination + 200) (reqs ++ [pagination])
            (agg ++ parse_page_forms_json (table.trs.drop 1))
            (writes ++ save_page_form_pdf fetch (table.trs.drop 1))) := by
  simp only [main_loop]

/-- C1, counterexample.  Deduplication is not global: on a listing whose
pages 0 and 200 each carry one row with the same key A (years 2019 and
2020), the finished crawl aggregates two separate records for key A — one
per page — instead of a single record with range [2019, 2020], because
`parse_page_forms_json` starts from an empty list on every page. -/
theorem crawl_duplicates_key_across_pages :
    main_crawl ex_listing ex_fetch 4 =
      LoopResult.finished [0, 200, 400]
        [{ form_number := "A", form_title := "Form A", min_year := 2019, max_year := 2019 },
         { form_number := "A", form_title := "Form A", min_year := 2020, max_year := 2020 }]
        [{ path := "A/A_2019.pdf", content := [1] },
         { path := "A/A_2020.pdf", content := [1] }] ∧
    (LoopResult.aggregated_of (main_crawl ex_listing ex_fetch 4)).countP
        (fun r => r.form_number == "A") = 2 := by
  decide

/-- C1, amended.  Records are deduplicated per page only: a crawl over two
non-empty pages finishes with the concatenation of the two per-page
aggregations (so a key on both pages yields one record per page, each
covering only that page), and within each page the record keys are
pairwise distinct. -/
theorem crawl_dedup_per_page (hdr : Tr) (p1 p2 : List Tr) (fetch : String → Fetch)
    (h1 : p1 ≠ []) (h2 : p2 ≠ []) :
    main_crawl (two_page_listing hdr p1 p2) fetch 3 =
      LoopResult.finished [0, 200, 400]
        (parse_page_forms_json p1 ++ parse_page_forms_json p2)
        (save_page_form_pdf fetch p1 ++ save_page_form_pdf fetch p2) ∧
    ((parse_page_forms_json p1).map (fun r => r.form_number)).Nodup ∧
    ((parse_page_forms_json p2).map (fun r => r.form_number)).Nodup := by
  refine ⟨?_, foldl_fold_row_nodup p1 [] (by simp), foldl_fold_row_nodup p2 [] (by simp)⟩
  have e3 : main_crawl (two_page_listing hdr p1 p2) fetch 3 =
      main_loop (two_page_listing hdr p1 p2) fetch (2 + 1) 0 [] [] [] := rfl
  rw [e3, main_loop_succ]
  norm_num [two_page_listing, List.drop_one]
  rw [if_neg h1]
  rw [show (2 : Nat) = 1 + 1 from rfl, main_loop_succ]
  norm_num [two_page_listing, List.drop_one]
  rw [if_neg h2]
  rw [show (1 : Nat) = 0 + 1 from rfl, main_loop_succ]
  norm_num [two_page_listing, List.drop_one]

/-- C1, witness for the amended theorem at a concrete two-page listing. -/
theorem crawl_dedup_per_page_witness :
    main_crawl (two_page_listing hdr_tr [trA2019] [trA2020]) ex_fetch 3 =
      LoopResult.finished [0, 200, 400]
        (parse_page_forms_json [trA2019] ++ parse_page_forms_json [trA2020])
        (save_page_form_pdf ex_fetch [trA2019] ++ save_page_form_pdf ex_fetch [trA2020]) ∧
    ((parse_page_forms_json [trA2019]).map (fun r => r.form_number)).Nodup ∧
    ((parse_page_forms_json [trA2020]).map (fun r => r.form_number)).Nodup :=
  crawl_dedup_per_page hdr_tr [trA2019] [trA2020] ex_fetch (by decide) (by decide)

/-- C2.  The per-key fold computes exact extrema in any order: a non-empty
batch of well-formed rows sharing one key, presented in any permutation,
parses to exactly one record whose `min_year` and `max_year` are the
minimum and maximum of all the years; a single first occurrence inserts a
record with both bounds equal to its year; and on a record satisfying the
invariant a subsequent occurrence widens the bounds to
`min(min_year, year)` and `max(max_year, year)`. -/
theorem fold_extrema_any_order (k u t : String) (ys ys2 : List Int)
    (hne : ys ≠ []) (hperm : ys.Perm ys2) :
    (∃ m M, parse_page_forms_json (ys2.map (fun z => Tr.mk (some k) (some u) (some t) (some z)))
        = [{ form_number := k, form_title := t, min_year := m, max_year := M }] ∧
      m ∈ ys ∧ M ∈ ys ∧ ∀ z ∈ ys, m ≤ z ∧ z ≤ M) ∧
    (∀ (y : Int), parse_page_forms_json [Tr.mk (some k) (some u) (some t) (some y)]
        = [{ form_number := k, form_title := t, min_year := y, max_year := y }]) ∧
    (∀ (rec : Record) (z : Int), rec.min_year ≤ rec.max_year →
      (update_years rec z).min_year = min rec.min_year z ∧
      (update_years rec z).max_year = max rec.max_year z) := by
  refine ⟨?_, ?_, ?_⟩
  · rcases hys2 : ys2 with _ | ⟨z0, zs⟩
    · rw [hys2] at hperm
      exact absurd hperm.eq_nil hne
    · rw [hys2] at hperm
      have hr0 : fold_row [] (Tr.mk (some k) (some u) (some t) (some z0)) =
          [{ form_number := k, form_title := t, min_year := z0, max_year := z0 }] := by
        simp [fold_row, is_key_in_dict]
      have hparse : parse_page_forms_json
            ((z0 :: zs).map (fun z => Tr.mk (some k) (some u) (some t) (some z)))
          = [List.foldl update_years
              { form_number := k, form_title := t, min_year := z0, max_year := z0 } zs] := by
        simp only [List.map_cons, parse_page_forms_json, List.foldl_cons, hr0]
        exact foldl_fold_row_single_key k u t zs _ rfl
      set rr := List.foldl update_years
        { form_number := k, form_title := t, min_year := z0, max_year := z0 } zs with hrr
      have hmin : rr.min_year = List.foldl min z0 zs := foldl_update_years_min zs _
      have hmax : rr.max_year = List.foldl max z0 zs := foldl_update_years_max zs _ le_rfl
      refine ⟨rr.min_year, rr.max_year, ?_, ?_, ?_, ?_⟩
      · rw [hparse]
        refine congrArg (fun x => [x]) (record_eq_of_fields _ _ ?_ ?_ rfl rfl)
        · exact foldl_update_years_form_number zs _
        · exact foldl_update_years_form_title zs _
      · rw [hmin]
        refine hperm.mem_iff.mpr ?_
        rcases foldl_min_mem zs z0 with h | h
        · rw [h]; exact List.mem_cons_self z0 zs
        · exact List.mem_cons_of_mem _ h
      · rw [hmax]
        refine hperm.mem_iff.mpr ?_
        rcases foldl_max_mem zs z0 with h | h
        · rw [h]; exact List.mem_cons_self z0 zs
        · exact List.mem_cons_of_mem _ h
      · intro z hz
        have hz2 : z ∈ z0 :: zs := hperm.mem_iff.mp hz
        obtain ⟨hm1, hm2⟩ := foldl_min_le zs z0
        obtain ⟨hM1, hM2⟩ := foldl_max_le zs z0
        rcases List.mem_cons.mp hz2 with rfl | hz3
        · exact ⟨hmin ▸ hm1, hmax ▸ hM1⟩
        · exact ⟨hmin ▸ hm2 z hz3, hmax ▸ hM2 z hz3⟩
  · intro y
    simp [parse_page_forms_json, fold_row, is_key_in_dict]
  · intro rec z h
    exact ⟨update_years_min rec z, update_years_max rec z h⟩

/-- C2, witness: the years 2019 and 2020 for key 1040, processed in
reversed order, aggregate to one record with range [2019, 2020]. -/
theorem fold_extrema_any_order_witness :
    (∃ m M, parse_page_forms_json
          (([2020, 2019] : List Int).map
            (fun z => Tr.mk (some ("1040")) (some ("u1040"))
              (some ("Individual Tax Return")) (some z)))
        = [{ form_number := "1040", form_title := "Individual Tax Return",
             min_year := m, max_year := M }] ∧
      m ∈ ([2019, 2020] : List Int) ∧ M ∈ ([2019, 2020] : List Int) ∧
      ∀ z ∈ ([2019, 2020] : List Int), m ≤ z ∧ z ≤ M) ∧
    (∀ (y : Int), parse_page_forms_json
          [Tr.mk (some ("1040")) (some ("u1040")) (some ("Individual Tax Return")) (some y)]
        = [{ form_number := "1040", form_title := "Individual Tax Return",
             min_year := y, max_year := y }]) ∧
    (∀ (rec : Record) (z : Int), rec.min_year ≤ rec.max_year →
      (update_years rec z).min_year = min rec.min_year z ∧
      (update_years rec z).max_year = max rec.max_year z) :=
  fold_extrema_any_order ("1040") ("u1040") ("Individual Tax Return")
    [2019, 2020] [2020, 2019] (by decide) (by decide)

/-- C3.  Pagination terminates with exactly one probe past the last page:
on a listing with N non-empty pages at offsets 0, 200, ..., 200(N-1) and an
empty page at offset 200N, the crawl (with enough fuel) finishes having
requested exactly the N+1 offsets 200 i for i = 0, ..., N. -/
theorem pagination_terminates_n_plus_one (listing : Nat → Soup) (fetch : String → Fetch)
    (N : Nat)
    (hN : ∀ i, i < N →
      ∃ tb, (listing (200 * i)).picklist_table = some tb ∧ tb.trs.drop 1 ≠ [])
    (hEnd : ∃ tb, (listing (200 * N)).picklist_table = some tb ∧ tb.trs.drop 1 = [])
    (fuel : Nat) (hfuel : N < fuel) :
    ∃ agg writes,
      main_crawl listing fetch fuel =
        LoopResult.finished ((List.range (N + 1)).map (fun i => 200 * i)) agg writes ∧
      ((List.range (N + 1)).map (fun i => 200 * i)).length = N + 1 := by
  obtain ⟨agg2, writes2, h⟩ :=
    main_loop_pages listing fetch N hN hEnd fuel 0 [] [] [] (by omega) (by omega)
  refine ⟨agg2, writes2, ?_, by simp⟩
  simpa [main_crawl] using h

/-- C3, witness at a one-page listing: exactly two requests, 0 and 200. -/
theorem pagination_terminates_n_plus_one_witness :
    ∃ agg writes,
      main_crawl w_listing ex_fetch 3 =
        LoopResult.finished ((List.range 2).map (fun i => 200 * i)) agg writes ∧
      ((List.range 2).map (fun i => 200 * i)).length = 2 :=
  pagination_terminates_n_plus_one w_listing ex_fetch 1
    (fun i hi => by
      have hi0 : i = 0 := by omega
      subst hi0
      exact ⟨{ trs := [hdr_tr, trA2019] }, rfl, by decide⟩)
    ⟨{ trs := [hdr_tr] }, rfl, rfl⟩
    3 (by omega)

/-- C4, code bug.  `load_page` returns the raw body exactly on 2xx, but on
any other status the log line reads the non-existent attribute
`status_code` of the aiohttp response, so an `AttributeError` escapes to
the caller instead of the failure being logged and contained; a transport
failure likewise escapes. -/
theorem load_page_status_mismatch_raises :
    load_page { status := 404, body := [] } = FetchOutcome.raised ("AttributeError") ∧
    load_page { status := 200, body := [7, 3] } = FetchOutcome.returned (some [7, 3]) ∧
    load_page { status := 299, body := [1] } = FetchOutcome.returned (some [1]) ∧
    load_page { status := 300, body := [1] } = FetchOutcome.raised ("AttributeError") ∧
    fetch_artifact (Fetch.transport_error ("TimeoutError")) =
      FetchOutcome.raised ("TimeoutError") := by
  decide

/-- C5.  For a well-formed row, an artifact file is written exactly when
the year lies in [MIN_YEAR, MAX_YEAR] and the fetch succeeds (2xx), and
then it is exactly one file at key/key_year.pdf holding the fetched body;
outside the window, or on a failed fetch, no file is written. -/
theorem artifact_written_iff_window_and_fetch_ok (fetch : String → Fetch)
    (k u : String) (tt : Option String) (y : Int) :
    save_page_form_pdf fetch [Tr.mk (some k) (some u) tt (some y)] =
      (if MIN_YEAR ≤ y ∧ y ≤ MAX_YEAR ∧ fetch_succeeds (fetch u) = true then
        [{ path := artifact_path k y, content := fetch_body (fetch u) }]
      else []) := by
  cases hf : fetch u with
  | resp r =>
    by_cases hw : MIN_YEAR ≤ y ∧ y ≤ MAX_YEAR
    · by_cases hs : 200 ≤ r.status ∧ r.status ≤ 299
      · simp [save_page_form_pdf, save_row, fetch_artifact, load_page, fetch_succeeds,
          fetch_body, hf, hw.1, hw.2, hs.1, hs.2]
      · simp only [save_page_form_pdf, List.map_cons, List.map_nil, save_row,
          fetch_artifact, load_page, fetch_succeeds, fetch_body, hf]
        rw [if_pos hw, if_neg hs]
        have hbool : (decide (200 ≤ r.status) && decide (r.status ≤ 299)) = false := by
          rcases Decidable.not_and_iff_or_not.mp hs with h | h <;> simp [h]
        rw [if_neg (by simp [hbool])]
        simp
    · simp only [save_page_form_pdf, List.map_cons, List.map_nil, save_row, hf]
      rw [if_neg hw, if_neg (by intro hcon; exact hw ⟨hcon.1, hcon.2.1⟩)]
      simp
  | transport_error e =>
    by_cases hw : MIN_YEAR ≤ y ∧ y ≤ MAX_YEAR
    · simp [save_page_form_pdf, save_row, fetch_artifact, fetch_succeeds, hf, hw.1, hw.2]
    · simp only [save_page_form_pdf, List.map_cons, List.map_nil, save_row, hf]
      rw [if_neg hw, if_neg (by intro hcon; exact hw ⟨hcon.1, hcon.2.1⟩)]
      simp

/-- C6.  Starting from any aggregation satisfying the invariant, every
record still satisfies min_year less-or-equal max_year after folding any
batch of rows; in particular this holds for `parse_page_forms_json`
itself, and a first occurrence of a key inserts a record with both bounds
equal to its year. -/
theorem aggregation_min_le_max (acc : List Record)
    (hacc : ∀ r ∈ acc, r.min_year ≤ r.max_year) (rows : List Tr) :
    (∀ r ∈ List.foldl fold_row acc rows, r.min_year ≤ r.max_year) ∧
    (∀ r ∈ parse_page_forms_json rows, r.min_year ≤ r.max_year) ∧
    (∀ (k t u : String) (y : Int), is_key_in_dict k acc = none →
      fold_row acc (Tr.mk (some k) (some u) (some t) (some y)) =
        acc ++ [{ form_number := k, form_title := t, min_year := y, max_year := y }]) := by
  refine ⟨foldl_fold_row_inv rows acc hacc, foldl_fold_row_inv rows [] (by simp), ?_⟩
  intro k t u y hnone
  simp [fold_row, hnone]

/-- C6, witness at the empty aggregation and a concrete two-row batch. -/
theorem aggregation_min_le_max_witness :
    (∀ r ∈ List.foldl fold_row [] [trA2019, trA2020], r.min_year ≤ r.max_year) ∧
    (∀ r ∈ parse_page_forms_json [trA2019, trA2020], r.min_year ≤ r.max_year) ∧
    (∀ (k t u : String) (y : Int), is_key_in_dict k [] = none →
      fold_row [] (Tr.mk (some k) (some u) (some t) (some y)) =
        [] ++ [{ form_number := k, form_title := t, min_year := y, max_year := y }]) :=
  aggregation_min_le_max [] (by simp) [trA2019, trA2020]

/-- C7, code bug.  A page whose soup has no `picklist-dataTable` table
makes the loop raise `AttributeError` (calling `find_all` on `None`)
instead of terminating cleanly, while a page whose table holds only the
header row (zero data rows) is the clean termination signal. -/
theorem absent_table_raises :
    main_crawl (fun _ => { picklist_table := none }) ex_fetch 5 =
      LoopResult.raised [0] ("AttributeError") ∧
    main_crawl (fun _ => { picklist_table := some { trs := [hdr_tr] } }) ex_fetch 5 =
      LoopResult.finished [0] [] [] := by
  decide

/-- C8, counterexample.  A row missing only its title cell is structurally
deficient, is excluded from aggregation (its key is unseen, so the
dictionary literal raises), yet it is still downloaded: the claim that
such a row is excluded from both the aggregated output and the download
path is false. -/
theorem missing_title_row_still_downloaded :
    parse_page_forms_json [tr_no_title] = [] ∧
    save_page_form_pdf ex_fetch [tr_no_title] =
      [{ path := "A/A_2019.pdf", content := [1] }] := by
  decide

/-- C8, amended.  A row whose year is missing or non-numeric, or whose key
cell is missing, is excluded from both aggregation and download, and its
presence anywhere in the batch changes nothing for the other rows. -/
theorem row_isolation_key_year (fetch : String → Fetch) (pre post : List Tr) (bad : Tr)
    (hbad : bad.year_val = none ∨ bad.key_text = none) :
    parse_page_forms_json (pre ++ bad :: post) = parse_page_forms_json (pre ++ post) ∧
    save_page_form_pdf fetch (pre ++ bad :: post) = save_page_form_pdf fetch (pre ++ post) := by
  constructor
  · simp only [parse_page_forms_json, List.foldl_append, List.foldl_cons,
      fold_row_skip _ bad hbad]
  · simp only [save_page_form_pdf, List.map_append, List.map_cons,
      save_row_skip fetch bad hbad, List.flatten_append, List.flatten_cons]
    simp

/-- C8, witness: a year-less row between two good rows changes nothing. -/
theorem row_isolation_key_year_witness :
    parse_page_forms_json ([trA2019] ++
        { key_text := some "B", href := some "uB", title_text := some "T",
          year_val := none } :: [trA2020]) =
      parse_page_forms_json ([trA2019] ++ [trA2020]) ∧
    save_page_form_pdf ex_fetch ([trA2019] ++
        { key_text := some "B", href := some "uB", title_text := some "T",
          year_val := none } :: [trA2020]) =
      save_page_form_pdf ex_fetch ([trA2019] ++ [trA2020]) :=
  row_isolation_key_year ex_fetch [trA2019] [trA2020] _ (Or.inl rfl)

/-- C9.  Frame property of the seen-key fold step: the batch keeps its
length, every other record is untouched, the hit record keeps its
form_number and form_title, and at most one of its two year bounds
changes. -/
theorem fold_update_frame (acc : List Record) (tr : Tr) (k : String) (y : Int) (i : Nat)
    (hk : tr.key_text = some k) (hy : tr.year_val = some y)
    (hi : is_key_in_dict k acc = some i) :
    (fold_row acc tr).length = acc.length ∧
    (∀ j, j ≠ i → (fold_row acc tr).getD j default_record = acc.getD j default_record) ∧
    ((fold_row acc tr).getD i default_record).form_number
        = (acc.getD i default_record).form_number ∧
    ((fold_row acc tr).getD i default_record).form_title
        = (acc.getD i default_record).form_title ∧
    (((fold_row acc tr).getD i default_record).min_year
        = (acc.getD i default_record).min_year ∨
     ((fold_row acc tr).getD i default_record).max_year
        = (acc.getD i default_record).max_year) := by
  obtain ⟨hlen, hkeq⟩ := is_key_in_dict_some k acc i hi
  have hfold : fold_row acc tr = acc.set i (update_years (acc.getD i default_record) y) := by
    simp only [fold_row, hk, hy, hi]
  rw [hfold]
  refine ⟨by simp, ?_, ?_, ?_, ?_⟩
  · intro j hj
    exact getD_set_ne acc i j _ (fun h => hj h.symm)
  · rw [getD_set_self acc i _ hlen, update_years_form_number]
  · rw [getD_set_self acc i _ hlen, update_years_form_title]
  · rw [getD_set_self acc i _ hlen]
    exact update_years_one_bound _ _

/-- C9, witness: folding year 2019 into the singleton aggregation for key
A keeps length, key and title, and moves only one bound. -/
theorem fold_update_frame_witness :
    (fold_row [recA2018] trA2019).length = [recA2018].length ∧
    (∀ j, j ≠ 0 →
      (fold_row [recA2018] trA2019).getD j default_record =
        [recA2018].getD j default_record) ∧
    ((fold_row [recA2018] trA2019).getD 0 default_record).form_number
        = ([recA2018].getD 0 default_record).form_number ∧
    ((fold_row [recA2018] trA2019).getD 0 default_record).form_title
        = ([recA2018].getD 0 default_record).form_title ∧
    (((fold_row [recA2018] trA2019).getD 0 default_record).min_year
        = ([recA2018].getD 0 default_record).min_year ∨
     ((fold_row [recA2018] trA2019).getD 0 default_record).max_year
        = ([recA2018].getD 0 default_record).max_year) :=
  fold_update_frame [recA2018] trA2019 ("A") 2019 0 rfl rfl (by decide)

/-- C10.  One call to `parse_page_forms_json` never emits two records with
the same form_number: the linear key scan inserts only unseen keys. -/
theorem parse_keys_nodup (rows : List Tr) :
    ((parse_page_forms_json rows).map (fun r => r.form_number)).Nodup :=
  foldl_fold_row_nodup rows [] (by simp)
